import Mathlib

/-!
Verification of the time-partitioned S3 reader and the status notifier of the
awss3receiver component.

The reader (`readAll`, `readTelemetryForTime`, `getObjectPrefixForTime`,
`getTimeKeyPartitionHour`, `getTimeKeyPartitionMinute`, `newS3Reader`) is
embedded from the Go source.  Times are represented as `Int` seconds since the
Unix epoch: Go's `time.Time` is an instant, `Add` adds a duration and `Before`
compares instants, so instants-as-integers is the exact semantics of the loop
arithmetic.  The calendar view (`Date`/`Clock`) of an instant is provided by
the Go standard library and is modelled here by the standard proleptic
Gregorian conversion (`civilFromDays`), which is extensionally the conversion
Go performs for UTC.

External collaborators (the S3 listing paginator, the object getter, the
caller-supplied sink, context cancellation, and the OpAMP channel of the
notifier) are modelled as explicit environments, and the functions produce an
event trace so that listing calls, fetches, sink invocations and log emissions
can be counted and ordered.
-/

namespace AwsS3

/-- Semantics of Go `fmt` verb `%02d` for a natural number: decimal digits,
left-padded with zeros to a minimum width of two. -/
def pad2 (n : Nat) : String :=
  if n < 10 then "0" ++ toString n else toString n

/-- Era index of a day count shifted to the 0000-03-01 epoch: which 400-year
cycle the day falls in. -/
def dayEra (z : Int) : Int := (z + 719468) / 146097

/-- Day-of-era: position of the day inside its 400-year cycle, in
`[0, 146096]`. -/
def dayOfEra (z : Int) : Nat := ((z + 719468) % 146097).toNat

/-- Year-of-era of a day-of-era, in `[0, 399]`. -/
def yearOfEra (doe : Nat) : Nat :=
  (doe - doe / 1460 + doe / 36524 - doe / 146096) / 365

/-- Day-of-year (March-based) of a day-of-era, in `[0, 365]`. -/
def dayOfYear (doe : Nat) : Nat :=
  doe - (365 * yearOfEra doe + yearOfEra doe / 4 - yearOfEra doe / 100)

/-- March-based month index of a day-of-year, in `[0, 11]`. -/
def monthPos (doy : Nat) : Nat := (5 * doy + 2) / 153

/-- Modelled from Go `time.Time` (external standard library): civil date
(year, month, day) of a day count relative to 1970-01-01, proleptic Gregorian
calendar, via the standard era decomposition. -/
def civilFromDays (z : Int) : Int × Nat × Nat :=
  let doe := dayOfEra z
  let doy := dayOfYear doe
  let mp := monthPos doy
  let d := doy - (153 * mp + 2) / 5 + 1
  let m := if mp < 10 then mp + 3 else mp - 9
  let y : Int := (yearOfEra doe : Int) + dayEra z * 400
  (if m ≤ 2 then y + 1 else y, m, d)

/-- Modelled from Go `time.Time` (external standard library): the
`Date()`/`Clock()` fields of a Unix timestamp in seconds, UTC:
year, month, day, hour, minute. -/
def dateOf (sec : Int) : Int × Nat × Nat × Nat × Nat :=
  let c := civilFromDays (sec / 86400)
  let rem := (sec % 86400).toNat
  (c.1, c.2.1, c.2.2, rem / 3600, rem % 3600 / 60)

/-- Modelled from the spec: the partition-name constants referenced by the
source are declared in configuration code that is not among the shown files;
`readAll` compares the partition against the literal string "hour", and the
construction error message names the values "hour" and "minute". -/
def S3PartitionHour : String := "hour"

/-- Modelled from the spec: see `S3PartitionHour`. -/
def S3PartitionMinute : String := "minute"

/-- Embeds `getTimeKeyPartitionHour`:
`fmt.Sprintf("year=%d/month=%02d/day=%02d/hour=%02d", year, month, day, hour)`. -/
def getTimeKeyPartitionHour (t : Int) : String :=
  match dateOf t with
  | (year, month, day, hour, _) =>
    "year=" ++ toString year ++ "/month=" ++ pad2 month ++ "/day=" ++ pad2 day
      ++ "/hour=" ++ pad2 hour

/-- Embeds `getTimeKeyPartitionMinute`:
`fmt.Sprintf("year=%d/month=%02d/day=%02d/hour=%02d/minute=%02d", ...)`. -/
def getTimeKeyPartitionMinute (t : Int) : String :=
  match dateOf t with
  | (year, month, day, hour, minute) =>
    "year=" ++ toString year ++ "/month=" ++ pad2 month ++ "/day=" ++ pad2 day
      ++ "/hour=" ++ pad2 hour ++ "/minute=" ++ pad2 minute

/-- Embeds `s3Reader.getObjectPrefixForTime`: switch on the partition
(minute case first, then hour, no default, so any other value leaves the time
key empty), then a Sprintf with or without the leading configured prefix. -/
def getObjectPrefixForTime (s3Partition s3Prefix' filePrefix' : String)
    (t : Int) (telemetryType : String) : String :=
  let timeKey :=
    if s3Partition = S3PartitionMinute then getTimeKeyPartitionMinute t
    else if s3Partition = S3PartitionHour then getTimeKeyPartitionHour t
    else ""
  if s3Prefix' ≠ "" then
    s3Prefix' ++ "/" ++ timeKey ++ "/" ++ filePrefix' ++ telemetryType ++ "_"
  else
    timeKey ++ "/" ++ filePrefix' ++ telemetryType ++ "_"

/-- One page of an S3 ListObjectsV2 result: the keys of the listed objects
(`page.Contents`, each contributing `*obj.Key`). -/
structure S3Page where
  contents : List String
deriving DecidableEq

/-- The external object-store capability pair consumed by the reader: a
paginated lister (for each prefix, the successive results of `NextPage` of
the paginator created for that prefix) and a getter (`retrieveObject`:
`GetObject` plus reading the body, which either yields bytes or fails). -/
structure ReadEnv where
  pages : String → List (Except String S3Page)
  getObject : String → Except String (List Nat)

/-- Observable events of a reader run: a listing issued for a step (with the
step time and the derived key prefix), the informational empty-page log, an
object fetch, and a sink invocation. -/
inductive ReadEvent where
  | listStep (t : Int) (pfx : String)
  | logNoTelemetry (pfx : String)
  | fetchObject (key : String)
  | sinkCall (key : String) (data : List Nat)
deriving DecidableEq

/-- Embeds the inner loop of `readTelemetryForTime` over `page.Contents`:
for each object, `retrieveObject` then `dataCallback`; the first error
aborts. -/
def processObjects (env : ReadEnv) (sink : String → List Nat → Except String Unit) :
    List String → List ReadEvent × Except String Unit
  | [] => ([], Except.ok ())
  | key :: rest =>
    match env.getObject key with
    | Except.error e => ([], Except.error e)
    | Except.ok data =>
      match sink key data with
      | Except.error e =>
        ([ReadEvent.fetchObject key, ReadEvent.sinkCall key data], Except.error e)
      | Except.ok _ =>
        let r := processObjects env sink rest
        (ReadEvent.fetchObject key :: ReadEvent.sinkCall key data :: r.1, r.2)

/-- Embeds the pagination loop of `readTelemetryForTime`: while the paginator
has pages, take the next page (an error aborts); an empty first page only logs
informationally, any other page is processed object by object. -/
def processPages (env : ReadEnv) (sink : String → List Nat → Except String Unit)
    (pfx : String) :
    List (Except String S3Page) → Bool → List ReadEvent × Except String Unit
  | [], _ => ([], Except.ok ())
  | pg :: rest, firstPage =>
    match pg with
    | Except.error e => ([], Except.error e)
    | Except.ok page =>
      if firstPage && page.contents.isEmpty then
        let r := processPages env sink pfx rest false
        (ReadEvent.logNoTelemetry pfx :: r.1, r.2)
      else
        let ro := processObjects env sink page.contents
        match ro.2 with
        | Except.error e => (ro.1, Except.error e)
        | Except.ok _ =>
          let r := processPages env sink pfx rest false
          (ro.1 ++ r.1, r.2)

/-- Embeds `s3Reader.readTelemetryForTime`: derive the key prefix for the
step time, create the paginator for it (recorded as the step's listing call),
and drain its pages. -/
def readTelemetryForTime (env : ReadEnv)
    (sink : String → List Nat → Except String Unit)
    (s3Partition s3Prefix' filePrefix' : String) (t : Int)
    (telemetryType : String) : List ReadEvent × Except String Unit :=
  let pfx := getObjectPrefixForTime s3Partition s3Prefix' filePrefix' t telemetryType
  let r := processPages env sink pfx (env.pages pfx) true
  (ReadEvent.listStep t pfx :: r.1, r.2)

/-- Embeds the `s3Reader` struct (logger and client handles live in the
explicit environment instead). -/
structure S3Reader where
  s3Bucket : String
  s3Prefix' : String
  s3Partition : String
  filePrefix' : String
  startTime : Int
  endTime : Int
deriving DecidableEq

/-- Embeds the step selection at the top of `readAll`: one hour if the
partition is "hour", otherwise one minute (in seconds). -/
def timeStepOf (s3Partition : String) : Int :=
  if s3Partition = "hour" then 3600 else 60

/-- Embeds the `for currentTime := startTime; currentTime.Before(endTime);
currentTime = currentTime.Add(timeStep)` loop of `readAll`: before each step
the context is polled (`k` numbers the polls); an already-cancelled context
returns nil immediately; a step error is returned as is. -/
def readAllLoop (env : ReadEnv) (sink : String → List Nat → Except String Unit)
    (cancelled : Nat → Bool) (r : S3Reader) (telemetryType : String)
    (cur : Int) (k : Nat) : List ReadEvent × Except String Unit :=
  if h : cur < r.endTime then
    if cancelled k then ([], Except.ok ())
    else
      let res := readTelemetryForTime env sink r.s3Partition r.s3Prefix'
        r.filePrefix' cur telemetryType
      match res.2 with
      | Except.error e => (res.1, Except.error e)
      | Except.ok _ =>
        let rest := readAllLoop env sink cancelled r telemetryType
          (cur + timeStepOf r.s3Partition) (k + 1)
        (res.1 ++ rest.1, rest.2)
  else ([], Except.ok ())
termination_by (r.endTime - cur).toNat
decreasing_by
  simp only [timeStepOf]
  split <;> omega

/-- Embeds `s3Reader.readAll`: run the step loop from `startTime`. -/
def readAll (env : ReadEnv) (sink : String → List Nat → Except String Unit)
    (cancelled : Nat → Bool) (r : S3Reader) (telemetryType : String) :
    List ReadEvent × Except String Unit :=
  readAllLoop env sink cancelled r telemetryType r.startTime 0

/-- The times of the listing calls of a trace, in order. -/
def listTimes (tr : List ReadEvent) : List Int :=
  tr.filterMap fun e =>
    match e with
    | ReadEvent.listStep t _ => some t
    | _ => none

/-- The number of listing calls of a trace. -/
def listCount (tr : List ReadEvent) : Nat := (listTimes tr).length

/-- The sink invocations of a trace, in order. -/
def sinkCalls (tr : List ReadEvent) : List (String × List Nat) :=
  tr.filterMap fun e =>
    match e with
    | ReadEvent.sinkCall k d => some (k, d)
    | _ => none

/-- The expected step times: `start`, `start + step`, ... (`n` of them). -/
def stepTimes (start step : Int) (n : Nat) : List Int :=
  (List.range n).map fun i : Nat => start + (i : Int) * step

/-- The specified listing-call count: `ceil((endT - startT) / step)`,
clamped to zero for a degenerate range. -/
def ceilSteps (endT startT step : Int) : Nat :=
  (((endT - startT) + step - 1) / step).toNat

/-- The environment and sink never fail: every page listed, every object
fetched, and every sink invocation succeeds. -/
def ErrorFreeEnv (env : ReadEnv)
    (sink : String → List Nat → Except String Unit) : Prop :=
  (∀ pfx pg, pg ∈ env.pages pfx → ∃ page, pg = Except.ok page) ∧
  (∀ key, ∃ data, env.getObject key = Except.ok data) ∧
  (∀ key data, sink key data = Except.ok ())

/-- Embeds the `S3DownloaderConfig` fields the reader consumes. -/
structure S3DownloaderConfig where
  s3Bucket : String
  s3Prefix' : String
  s3Partition : String
  filePrefix' : String
deriving DecidableEq

/-- Embeds the `Config` fields consumed by `newS3Reader`. -/
structure Config where
  s3Downloader : S3DownloaderConfig
  startTime : String
  endTime : String
deriving DecidableEq

/-- Decimal digit-string parser over a character list, accumulator style. -/
def parseDigits : List Char → Nat → Option Nat
  | [], acc => some acc
  | c :: cs, acc =>
    if c.isDigit then parseDigits cs (acc * 10 + (c.toNat - '0'.toNat))
    else none

/-- Modelled from the spec: `parseTime` is not among the shown source files;
the spec says only that malformed time bounds fail construction with a config
error, so a time bound is modelled as a decimal timestamp string, failing on
anything that does not parse as a number. -/
def parseTime (s : String) (fieldName : String) : Except String Int :=
  match parseDigits s.data 0 with
  | some v => Except.ok (v : Int)
  | none => Except.error ("unable to parse " ++ fieldName)

/-- Embeds `newS3Reader`: build the client pair (external, its outcome is the
`clientResult` argument), parse both time bounds, validate the partition, and
assemble the reader.  There is no comparison between the two parsed times. -/
def newS3Reader (clientResult : Except String Unit) (cfg : Config) :
    Except String S3Reader :=
  match clientResult with
  | Except.error e => Except.error e
  | Except.ok _ =>
    match parseTime cfg.startTime "starttime" with
    | Except.error e => Except.error e
    | Except.ok startT =>
      match parseTime cfg.endTime "endtime" with
      | Except.error e => Except.error e
      | Except.ok endT =>
        if cfg.s3Downloader.s3Partition ≠ S3PartitionHour ∧
            cfg.s3Downloader.s3Partition ≠ S3PartitionMinute then
          Except.error "s3_partition must be either hour or minute"
        else
          Except.ok
            { s3Bucket := cfg.s3Downloader.s3Bucket
              s3Prefix' := cfg.s3Downloader.s3Prefix'
              s3Partition := cfg.s3Downloader.s3Partition
              filePrefix' := cfg.s3Downloader.filePrefix'
              startTime := startT
              endTime := endT }

/-- Modelled from the spec: the failed ingest status; the notifier adds the
failure message exactly when the notification carries this status. -/
def IngestStatusFailed : String := "failed"

/-- Modelled from the spec: the in-progress ingest status (used by the shown
unit tests). -/
def IngestStatusIngesting : String := "ingesting"

/-- Embeds the `statusNotification` record consumed by `SendStatus`; times
are epoch-nanosecond instants. -/
structure statusNotification where
  telemetryType : String
  ingestStatus : String
  ingestTime : Int
  startTime : Int
  endTime : Int
  failureMessage : String
deriving DecidableEq

/-- A log attribute value: string or 64-bit integer. -/
inductive AttrVal where
  | str (s : String)
  | int (i : Int)
deriving DecidableEq

/-- One structured log record: timestamp, body, attributes in order. -/
structure LogRecord where
  timestamp : Int
  body : String
  attributes : List (String × AttrVal)
deriving DecidableEq

/-- Modelled from the spec and the shown unit tests: `SendStatus` serializes
the notification into exactly one log record with timestamp the ingest time,
body the literal "status", the four standard attributes, and the failure
message exactly when the status is the failed status.  Timestamps are carried
as epoch-nanosecond integers. -/
def serializeStatus (n : statusNotification) : LogRecord :=
  { timestamp := n.ingestTime
    body := "status"
    attributes :=
      [("telemetry_type", AttrVal.str n.telemetryType),
       ("ingest_status", AttrVal.str n.ingestStatus),
       ("start_time", AttrVal.int n.startTime),
       ("end_time", AttrVal.int n.endTime)] ++
      (if n.ingestStatus = IngestStatusFailed then
        [("failure_message", AttrVal.str n.failureMessage)]
      else []) }

/-- Outcome of one submission to the channel capability: accepted, pending
with a readiness signal, or a hard error. -/
inductive SendOutcome where
  | delivered
  | pending
  | failed (e : String)
deriving DecidableEq

/-- Observable events of a `SendStatus` call: a submission to the channel
(always under the fixed message-type tag), an accepted delivery, a wait on a
readiness signal, a logged hard error, and the logged exhausted budget. -/
inductive NotifyEvent where
  | sendCall (messageType : String) (record : LogRecord)
  | delivered (messageType : String) (record : LogRecord)
  | awaitedSignal
  | loggedSendError (e : String)
  | loggedExhausted
deriving DecidableEq

/-- Modelled from the spec: the fixed maximum number of submission attempts;
the shown sources reference the constant without giving its value. -/
def maxNotificationAttempts : Nat := 4

/-- Modelled from the spec and the shown unit tests: the bounded retry loop
of `SendStatus`.  Each attempt submits the record; acceptance returns, a hard
error is logged and dropped, a pending outcome blocks on the readiness signal
and retries; an exhausted budget is logged and the notification dropped.
`chan` gives the channel's outcome for each attempt number. -/
def sendAttempts (chan : Nat → SendOutcome) (messageType : String)
    (record : LogRecord) : Nat → Nat → List NotifyEvent
  | 0, _ => [NotifyEvent.loggedExhausted]
  | budget + 1, k =>
    NotifyEvent.sendCall messageType record ::
      (match chan k with
       | SendOutcome.delivered => [NotifyEvent.delivered messageType record]
       | SendOutcome.failed e => [NotifyEvent.loggedSendError e]
       | SendOutcome.pending =>
         NotifyEvent.awaitedSignal ::
           sendAttempts chan messageType record budget (k + 1))

/-- Modelled from the spec and the shown unit tests: `SendStatus` serializes
the notification once and runs the bounded retry loop under the fixed
message-type tag.  It returns only a trace: no error reaches the caller. -/
def sendStatus (chan : Nat → SendOutcome) (n : statusNotification) :
    List NotifyEvent :=
  sendAttempts chan "TimeBasedIngestStatus" (serializeStatus n)
    maxNotificationAttempts 0

/-- The number of channel submissions of a notifier trace. -/
def sendCallCount (tr : List NotifyEvent) : Nat :=
  (tr.filter fun e =>
    match e with
    | NotifyEvent.sendCall _ _ => true
    | _ => false).length

/-- The records accepted by the channel, in order. -/
def deliveredRecords (tr : List NotifyEvent) : List (String × LogRecord) :=
  tr.filterMap fun e =>
    match e with
    | NotifyEvent.delivered mt record => some (mt, record)
    | _ => none

/-- The number of waits on readiness signals of a notifier trace. -/
def awaitCount (tr : List NotifyEvent) : Nat :=
  (tr.filter fun e =>
    match e with
    | NotifyEvent.awaitedSignal => true
    | _ => false).length

/-- Witness sink that always succeeds. -/
def wSink : String → List Nat → Except String Unit := fun _ _ => Except.ok ()

/-- Witness environment: every prefix lists one empty page, every fetch
succeeds with no bytes. -/
def wEnvEmpty : ReadEnv :=
  { pages := fun _ => [Except.ok ⟨[]⟩], getObject := fun _ => Except.ok [] }

/-- Witness environment: every prefix lists one page with a single object. -/
def wEnvOne : ReadEnv :=
  { pages := fun _ => [Except.ok ⟨["key1"]⟩]
    getObject := fun _ => Except.ok [7, 8] }

/-- Witness environment: every listing fails. -/
def wEnvListErr : ReadEnv :=
  { pages := fun _ => [Except.error "listing failed"]
    getObject := fun _ => Except.ok [] }

/-- Witness reader: hourly partition over 2021-01-01T00:00Z .. T02:00Z. -/
def wReaderHour : S3Reader :=
  { s3Bucket := "bucket", s3Prefix' := "", s3Partition := "hour"
    filePrefix' := "", startTime := 1609459200, endTime := 1609466400 }

/-- Witness reader with a degenerate (equal-bounds) range. -/
def wReaderDegenerate : S3Reader :=
  { s3Bucket := "bucket", s3Prefix' := "", s3Partition := "hour"
    filePrefix' := "", startTime := 1609459200, endTime := 1609459200 }

/-- Witness context that is never cancelled. -/
def wNoCancel : Nat → Bool := fun _ => false

/-- Witness context that is cancelled from the second poll on. -/
def wCancelFromOne : Nat → Bool := fun k => decide (1 ≤ k)

/-- Witness channel that accepts immediately. -/
def wChanDeliver : Nat → SendOutcome := fun _ => SendOutcome.delivered

/-- Witness channel that reports pending on every attempt. -/
def wChanPending : Nat → SendOutcome := fun _ => SendOutcome.pending

/-- Witness channel that fails hard on every attempt. -/
def wChanFail : Nat → SendOutcome := fun _ => SendOutcome.failed "send failed"

/-- Witness notification with a non-failed status. -/
def wNotification : statusNotification :=
  { telemetryType := "logs", ingestStatus := IngestStatusIngesting
    ingestTime := 5, startTime := 1, endTime := 2, failureMessage := "" }

/-- Witness configuration whose two time bounds are equal. -/
def wConfigEqualBounds : Config :=
  { s3Downloader :=
      { s3Bucket := "bucket", s3Prefix' := "", s3Partition := "hour"
        filePrefix' := "" }
    startTime := "5", endTime := "5" }

/-! ## Helper lemmas: calendar bounds -/

theorem dayOfEra_le (z : Int) : dayOfEra z ≤ 146096 := by
  unfold dayOfEra
  omega

theorem dayOfYear_le (doe : Nat) (h : doe ≤ 146096) : dayOfYear doe ≤ 365 := by
  unfold dayOfYear yearOfEra
  have hLf : doe / 1460 ≤ (doe - doe / 1460 + doe / 36524 - doe / 146096) / 1460 + 1 := by
    omega
  have hLg : (doe - doe / 1460 + doe / 36524 - doe / 146096) / 36500 + doe / 146096
      ≤ doe / 36524 := by
    rcases Nat.lt_or_ge doe 146096 with hlt | hge
    · have h3 : doe / 146096 = 0 := Nat.div_eq_of_lt (by omega)
      rw [h3]
      set g2 := doe / 36524 with hg2
      have hub : g2 ≤ 3 := by omega
      interval_cases g2 <;> omega
    · have hdoe : doe = 146096 := by omega
      subst hdoe
      decide
  have h4 : ((doe - doe / 1460 + doe / 36524 - doe / 146096) / 365) / 4
      = (doe - doe / 1460 + doe / 36524 - doe / 146096) / 1460 := by
    rw [Nat.div_div_eq_div_mul]
  have h100 : ((doe - doe / 1460 + doe / 36524 - doe / 146096) / 365) / 100
      = (doe - doe / 1460 + doe / 36524 - doe / 146096) / 36500 := by
    rw [Nat.div_div_eq_div_mul]
  rw [h4, h100]
  set g1 := doe / 1460 with hg1
  set g2 := doe / 36524 with hg2
  set g3 := doe / 146096 with hg3
  set f := doe - g1 + g2 - g3 with hf
  have hy : 365 * (f / 365) ≤ f := Nat.mul_div_le f 365
  have hy2 : f < 365 * (f / 365) + 365 := by omega
  set y := f / 365 with hyy
  set q4 := f / 1460 with hq4
  set q100 := f / 36500 with hq100
  have hq4f : 1460 * q4 ≤ f := Nat.mul_div_le f 1460
  clear_value y q4 q100
  clear hg1 hg2 hg3 hq4 hq100 hyy
  omega

theorem monthPos_le (doy : Nat) (h : doy ≤ 365) : monthPos doy ≤ 11 := by
  unfold monthPos
  omega

theorem civilFromDays_bounds (z : Int) :
    1 ≤ (civilFromDays z).2.1 ∧ (civilFromDays z).2.1 ≤ 12 ∧
    1 ≤ (civilFromDays z).2.2 ∧ (civilFromDays z).2.2 ≤ 31 := by
  have hdoe := dayOfEra_le z
  have hdoy := dayOfYear_le (dayOfEra z) hdoe
  have hmp := monthPos_le (dayOfYear (dayOfEra z)) hdoy
  unfold civilFromDays
  simp only
  refine ⟨?_, ?_, ?_, ?_⟩
  · split <;> omega
  · split <;> omega
  · omega
  · have hd : dayOfYear (dayOfEra z)
        - (153 * monthPos (dayOfYear (dayOfEra z)) + 2) / 5 ≤ 30 := by
      unfold monthPos at *
      omega
    omega

theorem dateOf_bounds (sec : Int) :
    1 ≤ (dateOf sec).2.1 ∧ (dateOf sec).2.1 ≤ 12 ∧
    1 ≤ (dateOf sec).2.2.1 ∧ (dateOf sec).2.2.1 ≤ 31 ∧
    (dateOf sec).2.2.2.1 ≤ 23 ∧ (dateOf sec).2.2.2.2 ≤ 59 := by
  have hc := civilFromDays_bounds (sec.ediv 86400)
  unfold dateOf
  simp only
  refine ⟨hc.1, hc.2.1, hc.2.2.1, hc.2.2.2, ?_, ?_⟩ <;> omega

theorem pad2_length_of_lt (n : Nat) (h : n < 100) : (pad2 n).length = 2 := by
  have : ∀ m < 100, (pad2 m).length = 2 := by decide
  exact this n h

/-- Sanity check of the calendar model: 1609459200 is 2021-01-01T00:00:00Z
and 1609466400 is 2021-01-01T02:00:00Z. -/
theorem dateOf_sanity :
    dateOf 1609459200 = (2021, 1, 1, 0, 0) ∧
    dateOf 1609466400 = (2021, 1, 1, 2, 0) ∧
    dateOf 0 = (1970, 1, 1, 0, 0) ∧
    dateOf (-1) = (1969, 12, 31, 23, 59) := by
  decide

/-- C2: key prefix generation is a pure function of the step time, the
granularity, the configured prefixes and the telemetry type (it is a function
of exactly those arguments, so identical inputs give the identical string);
for a valid granularity the result has the exact layout
year/month/day/hour with an optional minute component present exactly when
the granularity is minute and a leading configured-prefix segment present
exactly when that prefix is non-empty; month, day, hour and minute render as
exactly two zero-padded digits, the year unpadded. -/
theorem getObjectPrefixForTime_layout (t : Int)
    (s3Partition s3Prefix' filePrefix' telemetryType : String)
    (hPart : s3Partition = S3PartitionHour ∨ s3Partition = S3PartitionMinute) :
    getObjectPrefixForTime s3Partition s3Prefix' filePrefix' t telemetryType =
      (if s3Prefix' = "" then "" else s3Prefix' ++ "/")
        ++ "year=" ++ toString (dateOf t).1
        ++ "/month=" ++ pad2 (dateOf t).2.1
        ++ "/day=" ++ pad2 (dateOf t).2.2.1
        ++ "/hour=" ++ pad2 (dateOf t).2.2.2.1
        ++ (if s3Partition = S3PartitionMinute
            then "/minute=" ++ pad2 (dateOf t).2.2.2.2 else "")
        ++ "/" ++ filePrefix' ++ telemetryType ++ "_" ∧
    (pad2 (dateOf t).2.1).length = 2 ∧
    (pad2 (dateOf t).2.2.1).length = 2 ∧
    (pad2 (dateOf t).2.2.2.1).length = 2 ∧
    (pad2 (dateOf t).2.2.2.2).length = 2 := by
  obtain ⟨hb1, hb2, hb3, hb4, hb5, hb6⟩ := dateOf_bounds t
  refine ⟨?_, pad2_length_of_lt _ (by omega), pad2_length_of_lt _ (by omega),
    pad2_length_of_lt _ (by omega), pad2_length_of_lt _ (by omega)⟩
  rcases hdt : dateOf t with ⟨y, mo, d, hh, mi⟩
  rcases hPart with hp | hp <;> subst hp <;>
    by_cases hs : s3Prefix' = "" <;>
    simp [-String.reduceAppend, getObjectPrefixForTime,
      getTimeKeyPartitionHour, getTimeKeyPartitionMinute, S3PartitionHour,
      S3PartitionMinute, hdt, hs, String.append_assoc, String.append_empty,
      String.empty_append]

/-- Witness for C2 at 2021-01-01T01:00:00Z, hourly granularity, prefix
"abc", file prefix "fp", telemetry type "logs". -/
theorem getObjectPrefixForTime_layout_witness :
    ("hour" = S3PartitionHour ∨ "hour" = S3PartitionMinute) ∧
    (getObjectPrefixForTime "hour" "abc" "fp" 1609462800 "logs" =
      (if "abc" = "" then "" else "abc" ++ "/")
        ++ "year=" ++ toString (dateOf 1609462800).1
        ++ "/month=" ++ pad2 (dateOf 1609462800).2.1
        ++ "/day=" ++ pad2 (dateOf 1609462800).2.2.1
        ++ "/hour=" ++ pad2 (dateOf 1609462800).2.2.2.1
        ++ (if "hour" = S3PartitionMinute
            then "/minute=" ++ pad2 (dateOf 1609462800).2.2.2.2 else "")
        ++ "/" ++ "fp" ++ "logs" ++ "_" ∧
      (pad2 (dateOf 1609462800).2.1).length = 2 ∧
      (pad2 (dateOf 1609462800).2.2.1).length = 2 ∧
      (pad2 (dateOf 1609462800).2.2.2.1).length = 2 ∧
      (pad2 (dateOf 1609462800).2.2.2.2).length = 2) :=
  ⟨Or.inl rfl,
    getObjectPrefixForTime_layout 1609462800 "hour" "abc" "fp" "logs"
      (Or.inl rfl)⟩

/-! ## Helper lemmas: the reader loop -/

theorem timeStepOf_pos (p : String) : 0 < timeStepOf p := by
  unfold timeStepOf
  split <;> norm_num

theorem ceilSteps_eq_zero (e c s : Int) (hs : 0 < s) (h : e ≤ c) :
    ceilSteps e c s = 0 := by
  unfold ceilSteps
  rcases Int.lt_or_le (e - c + s - 1) 0 with hneg | hpos
  · have hq : (e - c + s - 1) / s < 0 := Int.ediv_neg' hneg hs
    omega
  · have hq : (e - c + s - 1) / s = 0 := Int.ediv_eq_zero_of_lt hpos (by omega)
    omega

theorem ceilSteps_succ (e c s : Int) (hs : 0 < s) (h : c < e) :
    ceilSteps e c s = ceilSteps e (c + s) s + 1 := by
  unfold ceilSteps
  have h1 : e - c + s - 1 = (e - (c + s) + s - 1) + 1 * s := by ring
  rw [h1, Int.add_mul_ediv_right _ _ (by omega : s ≠ 0)]
  have h2 : 0 ≤ e - (c + s) + s - 1 := by omega
  have h3 : 0 ≤ (e - (c + s) + s - 1) / s := Int.ediv_nonneg h2 (by omega)
  omega

theorem stepTimes_succ (c s : Int) (n : Nat) :
    stepTimes c s (n + 1) = c :: stepTimes (c + s) s n := by
  unfold stepTimes
  rw [List.range_succ_eq_map, List.map_cons, List.map_map]
  congr 1
  · push_cast
    ring
  · refine List.map_congr_left ?_
    intro i _
    simp only [Function.comp_apply]
    push_cast
    ring

theorem stepTimes_chain (s : Int) (hs : 0 < s) :
    ∀ (n : Nat) (c : Int), List.Chain' (· < ·) (stepTimes c s n) := by
  intro n
  induction n with
  | zero => intro c; exact List.chain'_nil
  | succ m ih =>
    intro c
    cases m with
    | zero =>
      rw [stepTimes_succ]
      exact List.chain'_singleton c
    | succ m' =>
      rw [stepTimes_succ, stepTimes_succ, List.chain'_cons]
      constructor
      · omega
      · rw [← stepTimes_succ]
        exact ih (c + s)

theorem listTimes_append (a b : List ReadEvent) :
    listTimes (a ++ b) = listTimes a ++ listTimes b := by
  unfold listTimes
  exact List.filterMap_append a b _

theorem listTimes_processObjects (env : ReadEnv)
    (sink : String → List Nat → Except String Unit) (keys : List String) :
    listTimes (processObjects env sink keys).1 = [] := by
  induction keys with
  | nil => rfl
  | cons key rest ih =>
    cases hg : env.getObject key with
    | error e => simp [processObjects, hg, listTimes]
    | ok data =>
      cases hs : sink key data with
      | error e => simp [processObjects, hg, hs, listTimes]
      | ok u =>
        simp only [listTimes, List.filterMap_cons] at ih ⊢
        simp [processObjects, hg, hs, ih]

theorem listTimes_processPages (env : ReadEnv)
    (sink : String → List Nat → Except String Unit) (pfx : String) :
    ∀ (pgs : List (Except String S3Page)) (first : Bool),
      listTimes (processPages env sink pfx pgs first).1 = [] := by
  intro pgs
  induction pgs with
  | nil => intro first; rfl
  | cons pg rest ih =>
    intro first
    have hob := listTimes_processObjects env sink
    have ihf := ih false
    simp only [listTimes] at hob ihf ⊢
    cases pg with
    | error e => simp [processPages]
    | ok page =>
      cases hfe : first && page.contents.isEmpty with
      | true => simp [processPages, hfe, ihf]
      | false =>
        cases hro : (processObjects env sink page.contents).2 with
        | error e => simp [processPages, hfe, hro, hob]
        | ok u =>
          simp [processPages, hfe, hro, List.filterMap_append, hob, ihf]

theorem listTimes_readTelemetryForTime (env : ReadEnv)
    (sink : String → List Nat → Except String Unit)
    (a b c : String) (t : Int) (tt : String) :
    listTimes (readTelemetryForTime env sink a b c t tt).1 = [t] := by
  unfold readTelemetryForTime
  have h := listTimes_processPages env sink
    (getObjectPrefixForTime a b c t tt)
    (env.pages (getObjectPrefixForTime a b c t tt)) true
  simp only [listTimes, List.filterMap_cons] at h ⊢
  rw [h]

theorem processObjects_ok (env : ReadEnv)
    (sink : String → List Nat → Except String Unit)
    (hG : ∀ key, ∃ d, env.getObject key = Except.ok d)
    (hS : ∀ key d, sink key d = Except.ok ()) :
    ∀ keys, (processObjects env sink keys).2 = Except.ok () := by
  intro keys
  induction keys with
  | nil => rfl
  | cons key rest ih =>
    obtain ⟨d, hd⟩ := hG key
    unfold processObjects
    rw [hd]
    simp only [hS key d]
    exact ih

theorem processPages_ok (env : ReadEnv)
    (sink : String → List Nat → Except String Unit) (pfx : String)
    (hG : ∀ key, ∃ d, env.getObject key = Except.ok d)
    (hS : ∀ key d, sink key d = Except.ok ()) :
    ∀ (pgs : List (Except String S3Page)),
      (∀ pg ∈ pgs, ∃ page, pg = Except.ok page) → ∀ first,
      (processPages env sink pfx pgs first).2 = Except.ok () := by
  intro pgs
  induction pgs with
  | nil => intro _ first; rfl
  | cons pg rest ih =>
    intro hPg first
    obtain ⟨page, hpage⟩ := hPg pg (by simp)
    subst hpage
    have hrest : ∀ q ∈ rest, ∃ page, q = Except.ok page := by
      intro q hq
      exact hPg q (by simp [hq])
    unfold processPages
    by_cases hc : (first && page.contents.isEmpty) = true
    · simp only [hc, if_true]
      exact ih hrest false
    · simp only [hc, if_false]
      rw [processObjects_ok env sink hG hS page.contents]
      exact ih hrest false

theorem readTelemetryForTime_ok (env : ReadEnv)
    (sink : String → List Nat → Except String Unit)
    (hEF : ErrorFreeEnv env sink) (a b c : String) (t : Int) (tt : String) :
    (readTelemetryForTime env sink a b c t tt).2 = Except.ok () := by
  obtain ⟨hPg, hG, hS⟩ := hEF
  unfold readTelemetryForTime
  exact processPages_ok env sink _ hG hS _ (hPg _) true

theorem readAllLoop_normal (env : ReadEnv)
    (sink : String → List Nat → Except String Unit)
    (cancelled : Nat → Bool) (r : S3Reader) (ttype : String)
    (hEF : ErrorFreeEnv env sink) (hNC : ∀ k, cancelled k = false) :
    ∀ (n : Nat) (cur : Int) (k : Nat),
      ceilSteps r.endTime cur (timeStepOf r.s3Partition) = n →
      listTimes (readAllLoop env sink cancelled r ttype cur k).1
          = stepTimes cur (timeStepOf r.s3Partition) n ∧
      (readAllLoop env sink cancelled r ttype cur k).2 = Except.ok () := by
  intro n
  induction n with
  | zero =>
    intro cur k hn
    have hnotlt : ¬ cur < r.endTime := by
      intro hlt
      rw [ceilSteps_succ _ _ _ (timeStepOf_pos _) hlt] at hn
      omega
    rw [readAllLoop.eq_def, dif_neg hnotlt]
    exact ⟨rfl, rfl⟩
  | succ m ih =>
    intro cur k hn
    have hlt : cur < r.endTime := by
      by_contra hge
      rw [ceilSteps_eq_zero _ _ _ (timeStepOf_pos _) (by omega)] at hn
      omega
    have hnext : ceilSteps r.endTime (cur + timeStepOf r.s3Partition)
        (timeStepOf r.s3Partition) = m := by
      have := ceilSteps_succ r.endTime cur _ (timeStepOf_pos r.s3Partition) hlt
      omega
    obtain ⟨ihtr, ihok⟩ := ih (cur + timeStepOf r.s3Partition) (k + 1) hnext
    have hok := readTelemetryForTime_ok env sink hEF r.s3Partition r.s3Prefix'
      r.filePrefix' cur ttype
    have hcf : ¬ (cancelled k = true) := by
      rw [hNC k]
      exact Bool.false_ne_true
    rw [readAllLoop.eq_def, dif_pos hlt, if_neg hcf]
    simp only [hok]
    constructor
    · rw [listTimes_append, listTimes_readTelemetryForTime, ihtr,
        stepTimes_succ]
      rfl
    · exact ihok

theorem wEnvEmpty_errorFree : ErrorFreeEnv wEnvEmpty wSink := by
  refine ⟨?_, ?_, ?_⟩
  · intro pfx pg h
    refine ⟨⟨[]⟩, ?_⟩
    simpa [wEnvEmpty] using h
  · intro key
    exact ⟨[], rfl⟩
  · intro key d
    rfl

theorem wEnvOne_errorFree : ErrorFreeEnv wEnvOne wSink := by
  refine ⟨?_, ?_, ?_⟩
  · intro pfx pg h
    refine ⟨⟨["key1"]⟩, ?_⟩
    simpa [wEnvOne] using h
  · intro key
    exact ⟨[7, 8], rfl⟩
  · intro key d
    rfl

/-- C1: for every reader constructed with valid bounds and a valid
granularity, a run of `readAll` with no cancellation over an error-free
environment issues exactly `ceil((endTime - startTime) / step)` listing
calls, one per time step (the whole trace of listing times is
`startTime, startTime + step, ...`), in strictly increasing time order, and
terminates normally with a nil error once the step cursor reaches
`endTime`. -/
theorem readAll_listing_steps (env : ReadEnv)
    (sink : String → List Nat → Except String Unit) (cancelled : Nat → Bool)
    (r : S3Reader) (ttype : String)
    (hPart : r.s3Partition = S3PartitionHour ∨ r.s3Partition = S3PartitionMinute)
    (hEF : ErrorFreeEnv env sink) (hNC : ∀ k, cancelled k = false) :
    listTimes (readAll env sink cancelled r ttype).1
      = stepTimes r.startTime (timeStepOf r.s3Partition)
          (ceilSteps r.endTime r.startTime (timeStepOf r.s3Partition)) ∧
    listCount (readAll env sink cancelled r ttype).1
      = ceilSteps r.endTime r.startTime (timeStepOf r.s3Partition) ∧
    List.Chain' (· < ·) (listTimes (readAll env sink cancelled r ttype).1) ∧
    (readAll env sink cancelled r ttype).2 = Except.ok () := by
  obtain ⟨htr, hok⟩ := readAllLoop_normal env sink cancelled r ttype hEF hNC
    (ceilSteps r.endTime r.startTime (timeStepOf r.s3Partition))
    r.startTime 0 rfl
  unfold readAll
  refine ⟨htr, ?_, ?_, hok⟩
  · unfold listCount
    rw [htr]
    unfold stepTimes
    rw [List.length_map, List.length_range]
  · rw [htr]
    exact stepTimes_chain _ (timeStepOf_pos _) _ _

/-- Witness for C1: hourly reader over 2021-01-01T00:00Z .. T02:00Z with an
empty-page environment. -/
theorem readAll_listing_steps_witness :
    (wReaderHour.s3Partition = S3PartitionHour ∨
      wReaderHour.s3Partition = S3PartitionMinute) ∧
    ErrorFreeEnv wEnvEmpty wSink ∧ (∀ k, wNoCancel k = false) ∧
    (listTimes (readAll wEnvEmpty wSink wNoCancel wReaderHour "logs").1
        = stepTimes wReaderHour.startTime (timeStepOf wReaderHour.s3Partition)
            (ceilSteps wReaderHour.endTime wReaderHour.startTime
              (timeStepOf wReaderHour.s3Partition)) ∧
      listCount (readAll wEnvEmpty wSink wNoCancel wReaderHour "logs").1
        = ceilSteps wReaderHour.endTime wReaderHour.startTime
            (timeStepOf wReaderHour.s3Partition) ∧
      List.Chain' (· < ·)
        (listTimes (readAll wEnvEmpty wSink wNoCancel wReaderHour "logs").1) ∧
      (readAll wEnvEmpty wSink wNoCancel wReaderHour "logs").2
        = Except.ok ()) :=
  ⟨Or.inl rfl, wEnvEmpty_errorFree, fun _ => rfl,
    readAll_listing_steps wEnvEmpty wSink wNoCancel wReaderHour "logs"
      (Or.inl rfl) wEnvEmpty_errorFree (fun _ => rfl)⟩

/-- C10: for a constructed reader whose startTime is not strictly before its
endTime, `readAll` performs no iterations at all: it issues zero listing
calls, invokes the sink zero times, and returns success, for every
environment, sink, cancellation signal and telemetry type. -/
theorem readAll_degenerate_range (env : ReadEnv)
    (sink : String → List Nat → Except String Unit) (cancelled : Nat → Bool)
    (r : S3Reader) (ttype : String) (h : r.endTime ≤ r.startTime) :
    readAll env sink cancelled r ttype = ([], Except.ok ()) ∧
    listCount (readAll env sink cancelled r ttype).1 = 0 ∧
    sinkCalls (readAll env sink cancelled r ttype).1 = [] := by
  have he : readAll env sink cancelled r ttype = ([], Except.ok ()) := by
    unfold readAll
    rw [readAllLoop.eq_def, dif_neg (by omega)]
  refine ⟨he, ?_, ?_⟩ <;> rw [he] <;> rfl

/-- Witness for C10: a reader with equal start and end bounds. -/
theorem readAll_degenerate_range_witness :
    wReaderDegenerate.endTime ≤ wReaderDegenerate.startTime ∧
    (readAll wEnvOne wSink wNoCancel wReaderDegenerate "logs"
        = ([], Except.ok ()) ∧
      listCount (readAll wEnvOne wSink wNoCancel wReaderDegenerate "logs").1
        = 0 ∧
      sinkCalls (readAll wEnvOne wSink wNoCancel wReaderDegenerate "logs").1
        = []) :=
  ⟨le_refl _,
    readAll_degenerate_range wEnvOne wSink wNoCancel wReaderDegenerate "logs"
      (le_refl _)⟩

theorem readAllLoop_cancelled (env : ReadEnv)
    (sink : String → List Nat → Except String Unit)
    (cancelled : Nat → Bool) (r : S3Reader) (ttype : String)
    (hEF : ErrorFreeEnv env sink) :
    ∀ (j : Nat) (cur : Int) (k : Nat), cancelled (k + j) = true →
      (readAllLoop env sink cancelled r ttype cur k).2 = Except.ok () ∧
      listCount (readAllLoop env sink cancelled r ttype cur k).1 ≤ j := by
  intro j
  induction j with
  | zero =>
    intro cur k hc
    by_cases hlt : cur < r.endTime
    · rw [readAllLoop.eq_def, dif_pos hlt, if_pos (by simpa using hc)]
      exact ⟨rfl, by simp [listCount, listTimes]⟩
    · rw [readAllLoop.eq_def, dif_neg hlt]
      exact ⟨rfl, by simp [listCount, listTimes]⟩
  | succ m ih =>
    intro cur k hc
    by_cases hlt : cur < r.endTime
    · by_cases hk : cancelled k = true
      · rw [readAllLoop.eq_def, dif_pos hlt, if_pos hk]
        exact ⟨rfl, by simp [listCount, listTimes]⟩
      · rw [readAllLoop.eq_def, dif_pos hlt, if_neg hk]
        have hok := readTelemetryForTime_ok env sink hEF r.s3Partition
          r.s3Prefix' r.filePrefix' cur ttype
        simp only [hok]
        obtain ⟨ih1, ih2⟩ := ih (cur + timeStepOf r.s3Partition) (k + 1)
          (by rw [show k + 1 + m = k + (m + 1) from by omega]; exact hc)
        refine ⟨ih1, ?_⟩
        unfold listCount at ih2 ⊢
        rw [listTimes_append, listTimes_readTelemetryForTime,
          List.length_append]
        simp only [List.length_cons, List.length_nil]
        omega
    · rw [readAllLoop.eq_def, dif_neg hlt]
      exact ⟨rfl, by simp [listCount, listTimes]⟩

/-- C3: if the cancellation signal is set at the poll made before step `k`,
and the environment is error-free (so that no earlier step aborts for a
different reason), `readAll` returns success — a nil error, not a failure —
and issues no listing call at or after the cancellation point: at most the
`k` steps polled before it. -/
theorem readAll_cancellation (env : ReadEnv)
    (sink : String → List Nat → Except String Unit)
    (cancelled : Nat → Bool) (r : S3Reader) (ttype : String) (k : Nat)
    (hEF : ErrorFreeEnv env sink) (hc : cancelled k = true) :
    (readAll env sink cancelled r ttype).2 = Except.ok () ∧
    listCount (readAll env sink cancelled r ttype).1 ≤ k := by
  unfold readAll
  exact readAllLoop_cancelled env sink cancelled r ttype hEF k r.startTime 0
    (by simpa using hc)

/-- Witness for C3: a context cancelled from the second poll on. -/
theorem readAll_cancellation_witness :
    ErrorFreeEnv wEnvEmpty wSink ∧ wCancelFromOne 1 = true ∧
    ((readAll wEnvEmpty wSink wCancelFromOne wReaderHour "logs").2
        = Except.ok () ∧
      listCount (readAll wEnvEmpty wSink wCancelFromOne wReaderHour "logs").1
        ≤ 1) :=
  ⟨wEnvEmpty_errorFree, rfl,
    readAll_cancellation wEnvEmpty wSink wCancelFromOne wReaderHour "logs" 1
      wEnvEmpty_errorFree rfl⟩

theorem readAllLoop_error (env : ReadEnv)
    (sink : String → List Nat → Except String Unit)
    (cancelled : Nat → Bool) (r : S3Reader) (ttype : String) (e : String)
    (hNC : ∀ k, cancelled k = false) :
    ∀ (m : Nat) (cur : Int) (k : Nat),
      (∀ j < m, (readTelemetryForTime env sink r.s3Partition r.s3Prefix'
        r.filePrefix' (cur + (j : Int) * timeStepOf r.s3Partition) ttype).2
          = Except.ok ()) →
      (readTelemetryForTime env sink r.s3Partition r.s3Prefix' r.filePrefix'
        (cur + (m : Int) * timeStepOf r.s3Partition) ttype).2
          = Except.error e →
      cur + (m : Int) * timeStepOf r.s3Partition < r.endTime →
      (readAllLoop env sink cancelled r ttype cur k).2 = Except.error e ∧
      listCount (readAllLoop env sink cancelled r ttype cur k).1 = m + 1 := by
  intro m
  induction m with
  | zero =>
    intro cur k _ herr hin
    rw [show cur + ((0 : Nat) : Int) * timeStepOf r.s3Partition = cur from by
      push_cast; ring] at herr hin
    rw [readAllLoop.eq_def, dif_pos hin, if_neg (by simp [hNC k])]
    simp only [herr]
    refine ⟨trivial, ?_⟩
    unfold listCount
    rw [listTimes_readTelemetryForTime]
    rfl
  | succ m ih =>
    intro cur k hok herr hin
    have hs := timeStepOf_pos r.s3Partition
    have hcast : ∀ (j : Nat), cur + timeStepOf r.s3Partition
        + (j : Int) * timeStepOf r.s3Partition
        = cur + ((j + 1 : Nat) : Int) * timeStepOf r.s3Partition := by
      intro j
      push_cast
      ring
    have hlt : cur < r.endTime := by
      have hnn : 0 ≤ ((m + 1 : Nat) : Int) * timeStepOf r.s3Partition :=
        mul_nonneg (by positivity) (le_of_lt hs)
      omega
    have hok0 := hok 0 (by omega)
    rw [show cur + ((0 : Nat) : Int) * timeStepOf r.s3Partition = cur from by
      push_cast; ring] at hok0
    rw [readAllLoop.eq_def, dif_pos hlt, if_neg (by simp [hNC k])]
    simp only [hok0]
    obtain ⟨ih1, ih2⟩ := ih (cur + timeStepOf r.s3Partition) (k + 1)
      (fun j hj => by rw [hcast j]; exact hok (j + 1) (by omega))
      (by rw [hcast m]; exact herr)
      (by rw [hcast m]; exact hin)
    refine ⟨ih1, ?_⟩
    unfold listCount at ih2 ⊢
    rw [listTimes_append, listTimes_readTelemetryForTime, List.length_append]
    simp only [List.length_cons, List.length_nil]
    omega

/-- C4: with no cancellation, if the first `k` steps succeed and the step at
`startTime + k*step` fails — covering an error from the listing paginator,
the object getter, or the caller-supplied sink, all of which surface as the
error of `readTelemetryForTime` — then `readAll` returns exactly that error
and attempts no further step: exactly `k + 1` listing calls are issued.
Moreover, within a step, a failing fetch stops before any further object is
fetched, and a failing sink invocation stops immediately after it. -/
theorem readAll_error_aborts (env : ReadEnv)
    (sink : String → List Nat → Except String Unit)
    (cancelled : Nat → Bool) (r : S3Reader) (ttype : String) (e : String)
    (k : Nat) (hNC : ∀ j, cancelled j = false)
    (hok : ∀ j < k, (readTelemetryForTime env sink r.s3Partition r.s3Prefix'
      r.filePrefix' (r.startTime + (j : Int) * timeStepOf r.s3Partition)
      ttype).2 = Except.ok ())
    (herr : (readTelemetryForTime env sink r.s3Partition r.s3Prefix'
      r.filePrefix' (r.startTime + (k : Int) * timeStepOf r.s3Partition)
      ttype).2 = Except.error e)
    (hin : r.startTime + (k : Int) * timeStepOf r.s3Partition < r.endTime) :
    (readAll env sink cancelled r ttype).2 = Except.error e ∧
    listCount (readAll env sink cancelled r ttype).1 = k + 1 ∧
    (∀ key rest e2, env.getObject key = Except.error e2 →
      processObjects env sink (key :: rest) = ([], Except.error e2)) ∧
    (∀ key rest data e2, env.getObject key = Except.ok data →
      sink key data = Except.error e2 →
      processObjects env sink (key :: rest)
        = ([ReadEvent.fetchObject key, ReadEvent.sinkCall key data],
            Except.error e2)) := by
  obtain ⟨h1, h2⟩ := readAllLoop_error env sink cancelled r ttype e hNC k
    r.startTime 0 hok herr hin
  unfold readAll
  refine ⟨h1, h2, ?_, ?_⟩
  · intro key rest e2 hg
    simp [processObjects, hg]
  · intro key rest data e2 hg hsk
    simp [processObjects, hg, hsk]

/-- Witness for C4: an environment whose every listing fails, over the
two-hour reader; the very first step fails. -/
theorem readAll_error_aborts_witness :
    (∀ j, wNoCancel j = false) ∧
    (readTelemetryForTime wEnvListErr wSink wReaderHour.s3Partition
      wReaderHour.s3Prefix' wReaderHour.filePrefix'
      (wReaderHour.startTime + ((0 : Nat) : Int)
        * timeStepOf wReaderHour.s3Partition) "logs").2
        = Except.error "listing failed" ∧
    wReaderHour.startTime + ((0 : Nat) : Int)
      * timeStepOf wReaderHour.s3Partition < wReaderHour.endTime ∧
    ((readAll wEnvListErr wSink wNoCancel wReaderHour "logs").2
        = Except.error "listing failed" ∧
      listCount (readAll wEnvListErr wSink wNoCancel wReaderHour "logs").1
        = 0 + 1) := by
  have herr : (readTelemetryForTime wEnvListErr wSink wReaderHour.s3Partition
      wReaderHour.s3Prefix' wReaderHour.filePrefix'
      (wReaderHour.startTime + ((0 : Nat) : Int)
        * timeStepOf wReaderHour.s3Partition) "logs").2
        = Except.error "listing failed" := rfl
  have hin : wReaderHour.startTime + ((0 : Nat) : Int)
      * timeStepOf wReaderHour.s3Partition < wReaderHour.endTime := by
    norm_num [wReaderHour, timeStepOf]
  have h := readAll_error_aborts wEnvListErr wSink wNoCancel wReaderHour
    "logs" "listing failed" 0 (fun _ => rfl) (fun j hj => absurd hj (by omega))
    herr hin
  exact ⟨fun _ => rfl, herr, hin, h.1, h.2.1⟩

theorem processObjects_trace (env : ReadEnv)
    (sink : String → List Nat → Except String Unit)
    (data : String → List Nat) :
    ∀ (keys : List String),
      (∀ key ∈ keys, env.getObject key = Except.ok (data key)) →
      (∀ key ∈ keys, sink key (data key) = Except.ok ()) →
      processObjects env sink keys =
        (keys.flatMap fun key =>
          [ReadEvent.fetchObject key, ReadEvent.sinkCall key (data key)],
         Except.ok ()) := by
  intro keys
  induction keys with
  | nil => intro _ _; rfl
  | cons key rest ih =>
    intro hG hS
    have hg := hG key (by simp)
    have hs := hS key (by simp)
    have ihr := ih (fun q hq => hG q (by simp [hq]))
      (fun q hq => hS q (by simp [hq]))
    simp [processObjects, hg, hs, ihr, List.flatMap_cons]

theorem sinkCalls_flat (data : String → List Nat) :
    ∀ (keys : List String),
      sinkCalls (keys.flatMap fun key =>
          [ReadEvent.fetchObject key, ReadEvent.sinkCall key (data key)])
        = keys.map fun key => (key, data key) := by
  intro keys
  induction keys with
  | nil => rfl
  | cons key rest ih =>
    simp only [sinkCalls, List.flatMap_cons, List.filterMap_append,
      List.filterMap_cons, List.map_cons] at ih ⊢
    rw [ih]
    rfl

/-- C5: per-step page handling of `readTelemetryForTime`.  A step whose only
listing page is empty logs the informational no-telemetry message, invokes
the sink zero times, and returns success (the empty result is not treated as
an error, so the loop proceeds to the next step); a step whose page is
non-empty fetches the bytes of every listed object and invokes the sink once
per object with that object's key and bytes, in the page's key order. -/
theorem readTelemetryForTime_page_behavior (env : ReadEnv)
    (sink : String → List Nat → Except String Unit)
    (partition pre filep : String) (t : Int) (ttype : String) :
    (env.pages (getObjectPrefixForTime partition pre filep t ttype)
        = [Except.ok ⟨[]⟩] →
      readTelemetryForTime env sink partition pre filep t ttype =
        ([ReadEvent.listStep t
            (getObjectPrefixForTime partition pre filep t ttype),
          ReadEvent.logNoTelemetry
            (getObjectPrefixForTime partition pre filep t ttype)],
         Except.ok ())) ∧
    (∀ (keys : List String) (data : String → List Nat),
      env.pages (getObjectPrefixForTime partition pre filep t ttype)
          = [Except.ok ⟨keys⟩] →
      keys ≠ [] →
      (∀ key ∈ keys, env.getObject key = Except.ok (data key)) →
      (∀ key ∈ keys, sink key (data key) = Except.ok ()) →
      readTelemetryForTime env sink partition pre filep t ttype =
        (ReadEvent.listStep t
            (getObjectPrefixForTime partition pre filep t ttype) ::
          keys.flatMap (fun key =>
            [ReadEvent.fetchObject key,
             ReadEvent.sinkCall key (data key)]),
         Except.ok ()) ∧
      sinkCalls (readTelemetryForTime env sink partition pre filep t ttype).1
        = keys.map fun key => (key, data key)) := by
  constructor
  · intro hp
    simp only [readTelemetryForTime]
    rw [hp]
    simp [processPages, processObjects]
  · intro keys data hp hne hG hS
    have hobj := processObjects_trace env sink data keys hG hS
    have hmain : readTelemetryForTime env sink partition pre filep t ttype =
        (ReadEvent.listStep t
            (getObjectPrefixForTime partition pre filep t ttype) ::
          keys.flatMap (fun key =>
            [ReadEvent.fetchObject key,
             ReadEvent.sinkCall key (data key)]),
         Except.ok ()) := by
      simp only [readTelemetryForTime]
      rw [hp]
      have hie : (⟨keys⟩ : S3Page).contents.isEmpty = false := by
        cases keys with
        | nil => exact absurd rfl hne
        | cons a l => rfl
      simp [processPages, hie, hobj]
    refine ⟨hmain, ?_⟩
    rw [hmain]
    have hflat := sinkCalls_flat data keys
    simp only [sinkCalls, List.filterMap_cons] at hflat ⊢
    exact hflat

/-- Witness for C5: the empty-page branch at `wEnvEmpty` and the single-object
branch at `wEnvOne`, over the 2021-01-01 hourly reader's first step. -/
theorem readTelemetryForTime_page_behavior_witness :
    (wEnvOne.pages (getObjectPrefixForTime "hour" "" "" 1609459200 "logs")
        = [Except.ok ⟨["key1"]⟩]) ∧
    (["key1"] ≠ ([] : List String)) ∧
    (∀ key ∈ ["key1"], wEnvOne.getObject key = Except.ok [7, 8]) ∧
    (∀ key ∈ ["key1"], wSink key [7, 8] = Except.ok ()) ∧
    (readTelemetryForTime wEnvOne wSink "hour" "" "" 1609459200 "logs" =
      (ReadEvent.listStep 1609459200
          (getObjectPrefixForTime "hour" "" "" 1609459200 "logs") ::
        (["key1"].flatMap fun key =>
          [ReadEvent.fetchObject key, ReadEvent.sinkCall key [7, 8]]),
       Except.ok ()) ∧
     sinkCalls
        (readTelemetryForTime wEnvOne wSink "hour" "" "" 1609459200 "logs").1
       = ["key1"].map fun key => (key, [7, 8])) := by
  refine ⟨rfl, by decide, fun _ _ => rfl, fun _ _ => rfl, ?_⟩
  exact (readTelemetryForTime_page_behavior wEnvOne wSink "hour" "" ""
    1609459200 "logs").2 ["key1"] (fun _ => [7, 8]) rfl (by decide)
    (fun _ _ => rfl) (fun _ _ => rfl)

/-! ## Helper lemmas: the notifier -/

theorem sendCallCount_cons_send (mt : String) (record : LogRecord)
    (tr : List NotifyEvent) :
    sendCallCount (NotifyEvent.sendCall mt record :: tr)
      = sendCallCount tr + 1 := by
  simp [sendCallCount, List.filter_cons]

theorem sendCallCount_cons_await (tr : List NotifyEvent) :
    sendCallCount (NotifyEvent.awaitedSignal :: tr) = sendCallCount tr := by
  simp [sendCallCount, List.filter_cons]

theorem awaitCount_cons_send (mt : String) (record : LogRecord)
    (tr : List NotifyEvent) :
    awaitCount (NotifyEvent.sendCall mt record :: tr) = awaitCount tr := by
  simp [awaitCount, List.filter_cons]

theorem awaitCount_cons_await (tr : List NotifyEvent) :
    awaitCount (NotifyEvent.awaitedSignal :: tr) = awaitCount tr + 1 := by
  simp [awaitCount, List.filter_cons]

theorem deliveredRecords_cons_send (mt : String) (record : LogRecord)
    (tr : List NotifyEvent) :
    deliveredRecords (NotifyEvent.sendCall mt record :: tr)
      = deliveredRecords tr := by
  simp [deliveredRecords, List.filterMap_cons]

theorem deliveredRecords_cons_await (tr : List NotifyEvent) :
    deliveredRecords (NotifyEvent.awaitedSignal :: tr)
      = deliveredRecords tr := by
  simp [deliveredRecords, List.filterMap_cons]

theorem sendAttempts_pending (chan : Nat → SendOutcome) (mt : String)
    (record : LogRecord) (hP : ∀ k, chan k = SendOutcome.pending) :
    ∀ (budget k : Nat),
      sendCallCount (sendAttempts chan mt record budget k) = budget ∧
      awaitCount (sendAttempts chan mt record budget k) = budget ∧
      deliveredRecords (sendAttempts chan mt record budget k) = [] ∧
      NotifyEvent.loggedExhausted ∈ sendAttempts chan mt record budget k := by
  intro budget
  induction budget with
  | zero =>
    intro k
    refine ⟨rfl, rfl, rfl, ?_⟩
    simp [sendAttempts]
  | succ b ih =>
    intro k
    obtain ⟨i1, i2, i3, i4⟩ := ih (k + 1)
    have hstep : sendAttempts chan mt record (b + 1) k
        = NotifyEvent.sendCall mt record :: NotifyEvent.awaitedSignal ::
            sendAttempts chan mt record b (k + 1) := by
      simp [sendAttempts, hP k]
    rw [hstep, sendCallCount_cons_send, sendCallCount_cons_await,
      awaitCount_cons_send, awaitCount_cons_await,
      deliveredRecords_cons_send, deliveredRecords_cons_await, i1, i2, i3]
    refine ⟨rfl, rfl, rfl, ?_⟩
    simp [i4]

/-- C7: on immediate delivery `sendStatus` submits exactly one serialized log
record under the fixed message-type tag; the record's timestamp equals the
notification's ingest time, its body is the literal "status", and its
attributes are exactly telemetry_type, ingest_status (strings), start_time
and end_time (integer nanosecond timestamps), with failure_message appended
exactly when the ingest status is the failed status. -/
theorem sendStatus_immediate (chan : Nat → SendOutcome)
    (n : statusNotification) (hd : chan 0 = SendOutcome.delivered) :
    sendStatus chan n =
      [NotifyEvent.sendCall "TimeBasedIngestStatus" (serializeStatus n),
       NotifyEvent.delivered "TimeBasedIngestStatus" (serializeStatus n)] ∧
    deliveredRecords (sendStatus chan n)
      = [("TimeBasedIngestStatus", serializeStatus n)] ∧
    (serializeStatus n).timestamp = n.ingestTime ∧
    (serializeStatus n).body = "status" ∧
    (n.ingestStatus ≠ IngestStatusFailed →
      (serializeStatus n).attributes =
        [("telemetry_type", AttrVal.str n.telemetryType),
         ("ingest_status", AttrVal.str n.ingestStatus),
         ("start_time", AttrVal.int n.startTime),
         ("end_time", AttrVal.int n.endTime)]) ∧
    (n.ingestStatus = IngestStatusFailed →
      (serializeStatus n).attributes =
        [("telemetry_type", AttrVal.str n.telemetryType),
         ("ingest_status", AttrVal.str n.ingestStatus),
         ("start_time", AttrVal.int n.startTime),
         ("end_time", AttrVal.int n.endTime),
         ("failure_message", AttrVal.str n.failureMessage)]) := by
  have hmax : maxNotificationAttempts = 3 + 1 := rfl
  have hmain : sendStatus chan n =
      [NotifyEvent.sendCall "TimeBasedIngestStatus" (serializeStatus n),
       NotifyEvent.delivered "TimeBasedIngestStatus" (serializeStatus n)] := by
    unfold sendStatus
    rw [hmax]
    simp [sendAttempts, hd]
  refine ⟨hmain, ?_, rfl, rfl, ?_, ?_⟩
  · rw [hmain]
    rfl
  · intro hne
    simp [serializeStatus, hne]
  · intro heq
    simp [serializeStatus, heq]

/-- Witness for C7: a channel that accepts immediately. -/
theorem sendStatus_immediate_witness :
    wChanDeliver 0 = SendOutcome.delivered ∧
    (sendStatus wChanDeliver wNotification =
      [NotifyEvent.sendCall "TimeBasedIngestStatus"
        (serializeStatus wNotification),
       NotifyEvent.delivered "TimeBasedIngestStatus"
        (serializeStatus wNotification)] ∧
    deliveredRecords (sendStatus wChanDeliver wNotification)
      = [("TimeBasedIngestStatus", serializeStatus wNotification)] ∧
    (serializeStatus wNotification).timestamp = wNotification.ingestTime ∧
    (serializeStatus wNotification).body = "status" ∧
    (wNotification.ingestStatus ≠ IngestStatusFailed →
      (serializeStatus wNotification).attributes =
        [("telemetry_type", AttrVal.str wNotification.telemetryType),
         ("ingest_status", AttrVal.str wNotification.ingestStatus),
         ("start_time", AttrVal.int wNotification.startTime),
         ("end_time", AttrVal.int wNotification.endTime)]) ∧
    (wNotification.ingestStatus = IngestStatusFailed →
      (serializeStatus wNotification).attributes =
        [("telemetry_type", AttrVal.str wNotification.telemetryType),
         ("ingest_status", AttrVal.str wNotification.ingestStatus),
         ("start_time", AttrVal.int wNotification.startTime),
         ("end_time", AttrVal.int wNotification.endTime),
         ("failure_message", AttrVal.str wNotification.failureMessage)])) :=
  ⟨rfl, sendStatus_immediate wChanDeliver wNotification rfl⟩

/-- C8: under permanently pending outcomes, `sendStatus` submits exactly the
maximum configured number of times, blocks on a readiness signal after each
pending submission, delivers zero records, and ends by logging that the
budget was exhausted — the retry loop terminates within the attempt
bound. -/
theorem sendStatus_pending_exhausts (chan : Nat → SendOutcome)
    (n : statusNotification) (hP : ∀ k, chan k = SendOutcome.pending) :
    sendCallCount (sendStatus chan n) = maxNotificationAttempts ∧
    awaitCount (sendStatus chan n) = maxNotificationAttempts ∧
    deliveredRecords (sendStatus chan n) = [] ∧
    NotifyEvent.loggedExhausted ∈ sendStatus chan n :=
  sendAttempts_pending chan "TimeBasedIngestStatus" (serializeStatus n) hP
    maxNotificationAttempts 0

/-- Witness for C8: a channel that reports pending forever. -/
theorem sendStatus_pending_exhausts_witness :
    (∀ k, wChanPending k = SendOutcome.pending) ∧
    (sendCallCount (sendStatus wChanPending wNotification)
        = maxNotificationAttempts ∧
      awaitCount (sendStatus wChanPending wNotification)
        = maxNotificationAttempts ∧
      deliveredRecords (sendStatus wChanPending wNotification) = [] ∧
      NotifyEvent.loggedExhausted ∈ sendStatus wChanPending wNotification) :=
  ⟨fun _ => rfl,
    sendStatus_pending_exhausts wChanPending wNotification (fun _ => rfl)⟩

/-- C9: a hard submission error makes `sendStatus` log the error and drop
the notification after exactly one submission attempt: the whole trace is
that one submission followed by the error log — no retry, no delivered
record, and no error value in the result (the function returns only its
trace, so nothing is surfaced to the caller). -/
theorem sendStatus_hard_error (chan : Nat → SendOutcome)
    (n : statusNotification) (e : String)
    (hf : chan 0 = SendOutcome.failed e) :
    sendStatus chan n =
      [NotifyEvent.sendCall "TimeBasedIngestStatus" (serializeStatus n),
       NotifyEvent.loggedSendError e] ∧
    sendCallCount (sendStatus chan n) = 1 ∧
    deliveredRecords (sendStatus chan n) = [] := by
  have hmax : maxNotificationAttempts = 3 + 1 := rfl
  have hmain : sendStatus chan n =
      [NotifyEvent.sendCall "TimeBasedIngestStatus" (serializeStatus n),
       NotifyEvent.loggedSendError e] := by
    unfold sendStatus
    rw [hmax]
    simp [sendAttempts, hf]
  refine ⟨hmain, ?_, ?_⟩ <;> rw [hmain] <;> rfl

/-- Witness for C9: a channel whose submission fails hard. -/
theorem sendStatus_hard_error_witness :
    wChanFail 0 = SendOutcome.failed "send failed" ∧
    (sendStatus wChanFail wNotification =
      [NotifyEvent.sendCall "TimeBasedIngestStatus"
        (serializeStatus wNotification),
       NotifyEvent.loggedSendError "send failed"] ∧
    sendCallCount (sendStatus wChanFail wNotification) = 1 ∧
    deliveredRecords (sendStatus wChanFail wNotification) = []) :=
  ⟨rfl, sendStatus_hard_error wChanFail wNotification "send failed" rfl⟩

/-- Counterexample to C6 as stated: a configuration whose two time bounds
parse to the same instant passes construction — `newS3Reader` returns a
reader with `startTime = endTime` instead of failing with a config error, so
construction does not enforce `start < end`. -/
theorem newS3Reader_equal_bounds_cex :
    newS3Reader (Except.ok ()) wConfigEqualBounds
      = Except.ok ⟨"bucket", "", "hour", "", 5, 5⟩ ∧
    ¬ (5 : Int) < 5 := by
  constructor
  · rfl
  · decide

/-- C6 amended: construction fails with a config error exactly when the
client cannot be built, a time bound fails to parse, or the partition
granularity is neither hour nor minute; the two parsed bounds are never
compared, so a successfully constructed reader carries exactly the parsed
bounds and copied fields, with no guarantee that `startTime < endTime`. -/
theorem newS3Reader_characterization (clientResult : Except String Unit)
    (cfg : Config) :
    ((∃ r, newS3Reader clientResult cfg = Except.ok r) ↔
      ((∃ u, clientResult = Except.ok u) ∧
       (∃ a, parseTime cfg.startTime "starttime" = Except.ok a) ∧
       (∃ b, parseTime cfg.endTime "endtime" = Except.ok b) ∧
       (cfg.s3Downloader.s3Partition = S3PartitionHour ∨
        cfg.s3Downloader.s3Partition = S3PartitionMinute))) ∧
    (∀ r, newS3Reader clientResult cfg = Except.ok r →
      parseTime cfg.startTime "starttime" = Except.ok r.startTime ∧
      parseTime cfg.endTime "endtime" = Except.ok r.endTime ∧
      r.s3Bucket = cfg.s3Downloader.s3Bucket ∧
      r.s3Prefix' = cfg.s3Downloader.s3Prefix' ∧
      r.s3Partition = cfg.s3Downloader.s3Partition ∧
      r.filePrefix' = cfg.s3Downloader.filePrefix') := by
  cases hc : clientResult with
  | error e => simp [newS3Reader, hc]
  | ok u =>
    cases hp1 : parseTime cfg.startTime "starttime" with
    | error e1 => simp [newS3Reader, hc, hp1]
    | ok a =>
      cases hp2 : parseTime cfg.endTime "endtime" with
      | error e2 => simp [newS3Reader, hc, hp1, hp2]
      | ok b =>
        by_cases hpart : cfg.s3Downloader.s3Partition ≠ S3PartitionHour ∧
            cfg.s3Downloader.s3Partition ≠ S3PartitionMinute
        · have hno : ¬ (cfg.s3Downloader.s3Partition = S3PartitionHour ∨
              cfg.s3Downloader.s3Partition = S3PartitionMinute) := by
            tauto
          simp [newS3Reader, hc, hp1, hp2, if_pos hpart, hno]
        · have hyes : cfg.s3Downloader.s3Partition = S3PartitionHour ∨
              cfg.s3Downloader.s3Partition = S3PartitionMinute := by
            tauto
          constructor
          · simp [newS3Reader, hc, hp1, hp2, if_neg hpart, hyes]
          · intro r hr
            simp only [newS3Reader, hc, hp1, hp2, if_neg hpart,
              Except.ok.injEq] at hr
            subst hr
            exact ⟨rfl, rfl, rfl, rfl, rfl, rfl⟩

/-- Witness for the amended C6 at a concrete configuration with equal
bounds: construction succeeds and the fields are exactly the parsed ones. -/
theorem newS3Reader_characterization_witness :
    (∃ r, newS3Reader (Except.ok ()) wConfigEqualBounds = Except.ok r) ∧
    (parseTime wConfigEqualBounds.startTime "starttime"
        = Except.ok (5 : Int) ∧
      parseTime wConfigEqualBounds.endTime "endtime" = Except.ok (5 : Int)) := by
  have h := newS3Reader_characterization (Except.ok ()) wConfigEqualBounds
  refine ⟨h.1.mpr ⟨⟨(), rfl⟩, ⟨5, rfl⟩, ⟨5, rfl⟩, Or.inl rfl⟩, rfl, rfl⟩

end AwsS3
